import Mathlib

/-!
Verification of the crawl-run orchestration engine of the ML jobs crawler.

The repository ships two variants of the same Express application:
- `src/server.js` (runs keyed in the `crawlRuns` map; SSE broadcast via
  `pushUpdate`; advanced mode = staged LangGraph pipeline + LLM scoring),
  embedded below in namespace `ServerJs`;
- `src/unnamed/part_000` (sessions keyed in `crawlSessions`; an `events`
  list polled by the stream endpoint; advanced mode = `runAdvancedDeepResearch`),
  embedded below in namespace `Part0`.

External I/O (the HTTP fetches of the job sources and the LLM call,
including their response parsing) is modelled by `Except`-valued parameters:
an `Except.ok` value is the job list / parsed response the call would have
produced, an `Except.error` value is the message of the exception the
JavaScript code would have thrown (network failure, non-success status,
unparsable body).  Timestamps (`new Date().toISOString()`) are dropped from
the embedded records: no property below depends on them.
-/

namespace MLJobs

/-- Lowercasing of a string, character by character: the embedding of
JavaScript `String.prototype.toLowerCase` for the ASCII data handled here. -/
def lowerStr (s : String) : String := String.mk (s.data.map Char.toLower)

/-- Substring test on character lists: `listContainsSub needle hay` is true
iff `needle` occurs contiguously in `hay`. -/
def listContainsSub (needle : List Char) : List Char → Bool
  | [] => needle.isEmpty
  | c :: rest => needle.isPrefixOf (c :: rest) || listContainsSub needle rest

/-- The embedding of JavaScript `String.prototype.includes`. -/
def strIncludes (hay sub : String) : Bool := listContainsSub sub.data hay.data

/-- Strict lexicographic order on character lists (by code point). -/
def strLtAux : List Char → List Char → Bool
  | [], [] => false
  | [], _ :: _ => true
  | _ :: _, [] => false
  | a :: as, b :: bs => if a = b then strLtAux as bs else decide (a < b)

/-- Lexicographic `≤` on strings; the model of the comparator
`a.title.localeCompare(b.title)` (the exact locale collation is
environment-defined, none of the verified properties depend on it). -/
def strLe (a b : String) : Bool := !(strLtAux b.data a.data)

/-- Stable insertion of one element into a sorted list: elements `y` with
`le y x` stay in front of `x`, so ties keep their original order. -/
def insertLe (le : α → α → Bool) (x : α) : List α → List α
  | [] => [x]
  | y :: ys => if le y x then y :: insertLe le x ys else x :: y :: ys

/-- Stable sort by a boolean comparator: the model of JavaScript
`Array.prototype.sort`, which is specified to be stable. -/
def sortBy (le : α → α → Bool) (l : List α) : List α :=
  l.foldl (fun acc x => insertLe le x acc) []

/-- `Math.round (a / b)` for non-negative operands. -/
def jsRound (a b : Nat) : Nat := (2 * a + b) / (2 * b)

/-- Boolean check that a list of naturals is non-decreasing. -/
def nonDecreasing : List Nat → Bool
  | [] => true
  | [_] => true
  | a :: b :: rest => a ≤ b && nonDecreasing (b :: rest)

/-- First-occurrence deduplication with an accumulator of already-seen keys:
an element is kept iff its key is not in `seen` and no earlier element of the
list had the same key.  This is the shape shared by `dedupeJobs` of
`src/server.js` (a `filter` over a `Set` of seen keys) and by the
`reduce`-into-object + `Object.values` of `src/unnamed/part_000` (string keys
of an object enumerate in insertion order, and every key built there contains
a separator character, so it is never an array-index key). -/
def dedupAux (key : α → String) (seen : List String) : List α → List α
  | [] => []
  | x :: rest =>
    if seen.contains (key x) then dedupAux key seen rest
    else x :: dedupAux key (key x :: seen) rest

/-- Deduplication by a key function, first occurrence wins. -/
def dedupeByKey (key : α → String) (l : List α) : List α := dedupAux key [] l

/-- Spec-side definition, following the spec's words for the Deduplicator:
"returns a sequence with duplicates removed, preserving the first
occurrence".  The head of the list is kept and every later element with the
same key is erased, recursively. -/
def keepFirstOccurrences (key : α → String) : List α → List α
  | [] => []
  | x :: rest => x :: keepFirstOccurrences key (rest.filter (fun y => key y != key x))
termination_by l => l.length
decreasing_by
  simp only [List.length_cons]
  exact Nat.lt_succ_of_le (List.length_filter_le _ _)

namespace Part0

/-- Canonical job record of `src/unnamed/part_000` (`normalizeJob` output). -/
structure Job where
  id : String
  source : String
  title : String
  company : String
  location : String
  url : String
  publishedAt : Option String
  description : String
deriving Repr, DecidableEq

/-- The `SEARCH_KEYWORDS` constant of `src/unnamed/part_000`. -/
def SEARCH_KEYWORDS : List String :=
  ["machine learning", "ml", "ai", "deep learning", "data scientist", "llm",
   "nlp", "computer vision"]

/-- `isMLJob` of `src/unnamed/part_000`: case-insensitive substring match of
any keyword against title, description and location concatenated. -/
def isMLJob (job : Job) : Bool :=
  let haystack := lowerStr (job.title ++ " " ++ job.description ++ " " ++ job.location)
  SEARCH_KEYWORDS.any (fun keyword => strIncludes haystack keyword)

/-- The deduplication key of `runCrawl` in `src/unnamed/part_000`:
`job.title.toLowerCase() + "-" + job.company.toLowerCase()`. -/
def dedupKey (job : Job) : String := lowerStr job.title ++ "-" ++ lowerStr job.company

/-- The deduplication step of `runCrawl` in `src/unnamed/part_000`: `reduce`
into an object keyed by `dedupKey` keeping the first job per key, then
`Object.values` (insertion order). -/
def dedupe (jobs : List Job) : List Job := dedupeByKey dedupKey jobs

/-- An entry of `session.events` (timestamp dropped). -/
inductive PEvent where
  | progressEv (progress : Nat) (stage : String)
  | logEv (message : String)
  | doneEv (progress : Nat) (stage : String) (totalJobs : Nat)
  | errorEv (message : String)
deriving Repr, DecidableEq

/-- A crawl session of `src/unnamed/part_000` (`createSession` shape;
the `id`, `startedAt` and `finishedAt` fields are opaque identifiers and
timestamps and are dropped). -/
structure Session where
  advancedMode : Bool
  status : String
  progress : Nat
  stage : String
  events : List PEvent
  jobs : List Job
  error : Option String
deriving Repr, DecidableEq

/-- `createSession` of `src/unnamed/part_000`. -/
def createSession (advancedMode : Bool) : Session :=
  { advancedMode := advancedMode, status := "running", progress := 0,
    stage := "Queued", events := [], jobs := [], error := none }

/-- `pushEvent` of `src/unnamed/part_000`: a plain push onto
`session.events`. -/
def pushEvent (session : Session) (event : PEvent) : Session :=
  { session with events := session.events ++ [event] }

/-- The parsed shape the LLM response of `runAdvancedDeepResearch` is
expected to have: `{"rankedIds": string[], "summary": string}` (a missing
`rankedIds` is read as `[]` by `parsed.rankedIds || []`, a missing summary
as `none` here, defaulted at the use site). -/
structure LLMResponse where
  rankedIds : List String
  summary : Option String
deriving Repr, DecidableEq

/-- Result record of `runAdvancedDeepResearch`. -/
structure AdvancedResult where
  jobs : List Job
  notes : List String
deriving Repr, DecidableEq

/-- `graphSteps` of `runAdvancedDeepResearch`. -/
def graphSteps : List String :=
  ["build_search_hypothesis", "cluster_roles", "rank_relevance", "summarize_market"]

/-- The notes accumulated by the `for (const step of graphSteps)` loop. -/
def graphNotes : List String :=
  graphSteps.map (fun step => "LangGraph node executed: " ++ step)

/-- `runAdvancedDeepResearch` of `src/unnamed/part_000`.  The single LLM
exchange (fetch + `JSON.parse` of the message content) is the `llm`
parameter: `Except.ok` carries the parsed response, `Except.error` the
message of whichever exception the try block would have caught. -/
def runAdvancedDeepResearch (jobs : List Job) (llmToken : String)
    (llm : Except String LLMResponse) : AdvancedResult :=
  if llmToken == "" then
    { jobs := jobs.take 30,
      notes := graphNotes ++ ["No LLM API token provided. Returned heuristic ranking only."] }
  else
    match llm with
    | Except.ok parsed =>
      let ranked := parsed.rankedIds.filterMap (fun rid => jobs.find? (fun job => job.id == rid))
      let remainder := jobs.filter (fun job => !(ranked.any (fun rJob => rJob.id == job.id)))
      { jobs := (ranked ++ remainder).take 30,
        notes := graphNotes ++ [parsed.summary.getD "LLM ranking completed."] }
    | Except.error e =>
      { jobs := jobs.take 30,
        notes := graphNotes ++ ["LLM ranking failed: " ++ e] }

/-- The per-source loop of `runCrawl` in `src/unnamed/part_000`: for each
source set stage and `progress = Math.round((i / 2) * 60) + 10` (the source
array has exactly the two entries Remotive and Arbeitnow), push a progress
event, then either collect the source's jobs with a success log or log the
failure and continue. -/
def crawlLoop : Session → List Job → Nat → List (String × Except String (List Job)) → Session × List Job
  | session, acc, _, [] => (session, acc)
  | session, acc, i, (name, outcome) :: rest =>
    let session := { session with stage := "Crawling " ++ name, progress := jsRound (i * 60) 2 + 10 }
    let session := pushEvent session (PEvent.progressEv session.progress session.stage)
    match outcome with
    | Except.ok sourceJobs =>
      let session := pushEvent session
        (PEvent.logEv ("Collected " ++ toString sourceJobs.length ++ " jobs from " ++ name))
      crawlLoop session (acc ++ sourceJobs) (i + 1) rest
    | Except.error e =>
      let session := pushEvent session (PEvent.logEv (name ++ " crawl failed: " ++ e))
      crawlLoop session acc (i + 1) rest

/-- The jobs a fetch outcome contributes: its list on success, nothing on
failure. -/
def jobsOf : Except String (List Job) → List Job
  | Except.ok l => l
  | Except.error _ => []

/-- `runCrawl` of `src/unnamed/part_000`.  The outer try/catch of the source
is unreachable in this embedding: the only throw sites (the two source
fetches and the LLM call) are modelled by the `Except` parameters and are
caught by the inner handlers exactly as in the source. -/
def runCrawl (session : Session) (remotive arbeitnow : Except String (List Job))
    (llmToken : String) (llm : Except String LLMResponse) : Session :=
  let step := crawlLoop session [] 0 [("Remotive", remotive), ("Arbeitnow", arbeitnow)]
  let session := step.1
  let session := { session with stage := "Filtering ML jobs", progress := 75 }
  let session := pushEvent session (PEvent.progressEv 75 session.stage)
  let mlJobs := step.2.filter isMLJob
  let deduped := dedupe mlJobs
  let afterRank :=
    if session.advancedMode then
      let session := { session with stage := "Advanced mode: LangGraph deep research", progress := 88 }
      let session := pushEvent session (PEvent.progressEv 88 session.stage)
      let advancedResult := runAdvancedDeepResearch deduped llmToken llm
      let session := pushEvent session (PEvent.logEv (String.intercalate " | " advancedResult.notes))
      (session, advancedResult.jobs)
    else
      (session, deduped)
  let session := afterRank.1
  let session := { session with jobs := afterRank.2.take 50, stage := "Completed", progress := 100, status := "completed" }
  pushEvent session (PEvent.doneEv 100 session.stage session.jobs.length)

/-- The complete lifecycle of a session started through
`POST /api/crawl/start` of `src/unnamed/part_000`: create the session, push
the initial progress-5 event (note: the handler pushes the event without
assigning `session.progress`), then run the crawl to its terminal state. -/
def part0Run (advancedMode : Bool) (llmToken : String)
    (remotive arbeitnow : Except String (List Job)) (llm : Except String LLMResponse) : Session :=
  let session := createSession advancedMode
  let session := pushEvent session
    (PEvent.progressEv 5 (if advancedMode then "Starting advanced crawl" else "Starting crawl"))
  runCrawl session remotive arbeitnow llmToken llm

/-- Outcome of the start endpoint: HTTP status and the session stored in the
`crawlSessions` registry (if any). -/
structure StartOutcome where
  httpStatus : Nat
  stored : Option Session
deriving Repr, DecidableEq

/-- `POST /api/crawl/start` of `src/unnamed/part_000`: unconditionally
creates a session (no mode or token validation), launches the crawl and
answers 202. -/
def startHandler (advancedMode : Bool) (llmToken : String)
    (remotive arbeitnow : Except String (List Job)) (llm : Except String LLMResponse) : StartOutcome :=
  { httpStatus := 202, stored := some (part0Run advancedMode llmToken remotive arbeitnow llm) }

/-- An action the stream endpoint performs on its response object: writing
one event as an SSE message, or ending the response. -/
inductive StreamAction where
  | write (event : PEvent)
  | endStream
deriving Repr, DecidableEq

/-- `pushPendingEvents` of the `GET /api/crawl/stream/:id` handler in
`src/unnamed/part_000`: write every not-yet-delivered event (advancing the
cursor), then, if the session is terminal, stop the poll timer and end the
response.  Returns the actions performed and the new cursor. -/
def pushPendingEvents (session : Session) (eventIndex : Nat) : List StreamAction × Nat :=
  let writes := (session.events.drop eventIndex).map StreamAction.write
  if session.status == "completed" || session.status == "failed" then
    (writes ++ [StreamAction.endStream], max eventIndex session.events.length)
  else
    (writes, max eventIndex session.events.length)

/-- Outcome of the stream endpoint: HTTP status and the actions of the first
(attach-time) invocation of `pushPendingEvents`, which starts at cursor 0. -/
structure StreamOutcome where
  httpStatus : Nat
  actions : List StreamAction
deriving Repr, DecidableEq

/-- `GET /api/crawl/stream/:id` of `src/unnamed/part_000`: 404 when the
lookup in `crawlSessions` fails (no stream opened), otherwise an immediate
`pushPendingEvents` from cursor 0. -/
def streamHandler (lookup : Option Session) : StreamOutcome :=
  match lookup with
  | none => { httpStatus := 404, actions := [] }
  | some session => { httpStatus := 200, actions := (pushPendingEvents session 0).1 }

end Part0

namespace ServerJs

/-- A job record as built by the scrapers of `src/server.js`; `fitScore` and
`rationale` are absent (`none`) until the advanced LLM step sets them. -/
structure Job where
  title : String
  company : String
  location : String
  source : String
  url : String
  postedAt : Option String
  summary : String
  fitScore : Option Int
  rationale : Option String
deriving Repr, DecidableEq

/-- The deduplication key of `dedupeJobs` in `src/server.js`:
`` `${job.title}|${job.company}|${job.url}`.toLowerCase() ``. -/
def dedupeKeyOf (job : Job) : String := lowerStr (job.title ++ "|" ++ job.company ++ "|" ++ job.url)

/-- `dedupeJobs` of `src/server.js`: filter keeping each job whose key was
not seen before. -/
def dedupeJobs (jobs : List Job) : List Job := dedupeByKey dedupeKeyOf jobs

/-- The run record of `src/server.js` (`createRun` shape; `id`, `createdAt`
and the `clients` set are transport bookkeeping and are dropped — the
messages written to the connected clients are recorded in `SState.actions`
below). -/
structure Run where
  mode : String
  status : String
  progress : Nat
  stage : String
  logs : List String
  jobs : List Job
deriving Repr, DecidableEq

/-- The payload `pushUpdate` serializes for every connected SSE client
(`id`, `mode` and `updatedAt` dropped as above). -/
structure Payload where
  status : String
  progress : Nat
  stage : String
  logs : List String
  jobs : List Job
deriving Repr, DecidableEq

/-- An action performed on a connected SSE client's response object.
`src/server.js` only ever writes (`client.write` in `pushUpdate`); it
contains no `res.end()` for these clients, so the embedding never constructs
`endStream` — the constructor exists to state that fact. -/
inductive SAction where
  | write (payload : Payload)
  | endStream
deriving Repr, DecidableEq

/-- A run of `src/server.js` together with the trace of messages broadcast
to its connected clients. -/
structure SState where
  run : Run
  actions : List SAction
deriving Repr, DecidableEq

/-- `createRun` of `src/server.js`. -/
def createRun (mode : String) : SState :=
  { run := { mode := mode, status := "running", progress := 0, stage := "Queued",
             logs := [], jobs := [] },
    actions := [] }

/-- The snapshot payload of `pushUpdate`. -/
def payloadOf (run : Run) : Payload :=
  { status := run.status, progress := run.progress, stage := run.stage,
    logs := run.logs, jobs := run.jobs }

/-- `pushUpdate` of `src/server.js` (always called with an already-updated
run and no patch argument at every call site): broadcast the current full
snapshot to the connected clients. -/
def pushUpdate (s : SState) : SState :=
  { s with actions := s.actions ++ [SAction.write (payloadOf s.run)] }

/-- The `run.logs` mutation of `addLog`: push the entry, then `shift` the
oldest one when the length exceeds 150 (log timestamps dropped). -/
def jsLogPush (logs : List String) (message : String) : List String :=
  let pushed := logs ++ [message]
  if pushed.length > 150 then pushed.drop 1 else pushed

/-- `addLog` of `src/server.js`: capped push onto `run.logs`, then a
broadcast of the snapshot. -/
def addLog (s : SState) (message : String) : SState :=
  pushUpdate { s with run := { s.run with logs := jsLogPush s.run.logs message } }

/-- The `.sort((a, b) => a.title.localeCompare(b.title))` of
`runStandardCrawl`, modelled as a stable sort by lexicographic title order. -/
def sortByTitle (jobs : List Job) : List Job :=
  sortBy (fun a b => strLe a.title b.title) jobs

/-- The per-source loop of `runStandardCrawl` in `src/server.js`: for each of
the two sources set stage and `progress = Math.floor((i / 2) * 80)`,
broadcast, run the scraper (which first logs its scanning message, then
either returns its jobs and logs the found-count, or throws), and on a throw
log the failure and continue.  The network fetch and source-specific
parsing/filtering inside each scraper are external I/O, given as the
per-entry `Except` outcome. -/
def standardLoop : SState → List Job → Nat → List (String × String × Except String (List Job)) → SState × List Job
  | s, acc, _, [] => (s, acc)
  | s, acc, i, (label, scanMsg, outcome) :: rest =>
    let s := pushUpdate { s with run := { s.run with stage := "Crawling " ++ label, progress := i * 80 / 2 } }
    let s := addLog s scanMsg
    match outcome with
    | Except.ok sourceJobs =>
      let s := addLog s (label ++ ": found " ++ toString sourceJobs.length ++ " matching ML roles.")
      standardLoop s (acc ++ sourceJobs) (i + 1) rest
    | Except.error e =>
      standardLoop (addLog s (label ++ " failed: " ++ e)) acc (i + 1) rest

/-- `runStandardCrawl` of `src/server.js`: crawl RemoteOK then
WeWorkRemotely, then set the dedupe stage at progress 90, replace `run.jobs`
by the deduplicated, title-sorted aggregate and broadcast. -/
def runStandardCrawl (s : SState) (remoteOk wwr : Except String (List Job)) : SState :=
  let step := standardLoop s [] 0
    [("RemoteOK", "Scanning RemoteOK API…", remoteOk),
     ("WeWorkRemotely", "Scanning WeWorkRemotely jobs feed…", wwr)]
  let s := step.1
  pushUpdate { s with run := { s.run with stage := "Deduplicating and ranking results", progress := 90, jobs := sortByTitle (dedupeJobs step.2) } }

/-- One parsed entry of the LLM response of `runLangGraphResearch`:
`url`, `fitScore` as already coerced by `Number(extra.fitScore) || null`
(so `none` for a missing, non-numeric or zero score), and `rationale` as
already defaulted by `extra.rationale || ""`. -/
structure Insight where
  url : String
  fitScore : Option Int
  rationale : String
deriving Repr, DecidableEq

/-- Lookup in `new Map(insights.map((x) => [x.url, x]))`: for duplicate urls
the later entry overwrites the earlier one, hence the search in the reversed
list. -/
def insightFor (insights : List Insight) (url : String) : Option Insight :=
  insights.reverse.find? (fun x => x.url == url)

/-- The merge of `runLangGraphResearch` on a successfully parsed response:
annotate each job with the insight matching its url (if any), then sort by
`(b.fitScore || 0) - (a.fitScore || 0)`, i.e. descending fit score, stably. -/
def applyInsights (jobs : List Job) (insights : List Insight) : List Job :=
  sortBy (fun a b => decide ((b.fitScore.getD 0) ≤ (a.fitScore.getD 0)))
    (jobs.map (fun job =>
      match insightFor insights job.url with
      | none => job
      | some extra => { job with fitScore := extra.fitScore, rationale := some extra.rationale }))

/-- `graphStages` of `runLangGraphResearch`. -/
def graphStages : List String :=
  ["Plan search strategy", "Collect candidate ML jobs",
   "Enrich with role-level reasoning", "Score and summarize opportunities"]

/-- The staged loop of `runLangGraphResearch`: for each of the four stages
set stage and `progress = Math.floor((i / 4) * 40)` and broadcast (the
350 ms `setTimeout` between stages is real time and is dropped). -/
def stagedLoop : SState → Nat → List String → SState
  | s, _, [] => s
  | s, i, stageName :: rest =>
    stagedLoop
      (pushUpdate { s with run := { s.run with stage := "Advanced pipeline: " ++ stageName, progress := i * 40 / 4 } })
      (i + 1) rest

/-- `runLangGraphResearch` of `src/server.js`: staged pipeline, then the
full standard crawl, then the LLM synthesis step at progress 95.  The LLM
exchange (fetch + cleanup + `JSON.parse`) is the `llm` parameter; on any
failure the catch logs the skip message and leaves `run.jobs` untouched. -/
def runLangGraphResearch (s : SState) (remoteOk wwr : Except String (List Job))
    (llm : Except String (List Insight)) : SState :=
  let s := addLog s "Advanced mode selected: initializing LangGraph-style research pipeline."
  let s := stagedLoop s 0 graphStages
  let s := runStandardCrawl s remoteOk wwr
  let s := pushUpdate { s with run := { s.run with stage := "Advanced pipeline: LLM synthesis", progress := 95 } }
  let topJobs := s.run.jobs.take 15
  if topJobs.isEmpty then
    addLog s "No jobs available for LLM synthesis."
  else
    match llm with
    | Except.ok insights =>
      let s := { s with run := { s.run with jobs := applyInsights s.run.jobs insights } }
      addLog s "LLM synthesis complete: jobs scored with fitScore and rationale."
    | Except.error e =>
      addLog s ("LLM synthesis skipped: " ++ e)

/-- `startRun` of `src/server.js`.  The only throw site inside its try block
that is not already caught deeper down is the token check of advanced mode
(`throw new Error("Advanced mode requires llmToken.")`); its catch sets the
run to failed, logs the message and broadcasts. -/
def startRun (s : SState) (llmToken : String) (remoteOk wwr : Except String (List Job))
    (llm : Except String (List Insight)) : SState :=
  let s := addLog s ("Starting " ++ s.run.mode ++ " crawl…")
  if s.run.mode == "advanced" && llmToken == "" then
    let s := { s with run := { s.run with status := "failed", stage := "Failed" } }
    pushUpdate (addLog s "Advanced mode requires llmToken.")
  else
    let s := if s.run.mode == "advanced" then runLangGraphResearch s remoteOk wwr llm
             else runStandardCrawl s remoteOk wwr
    pushUpdate { s with run := { s.run with stage := "Completed", progress := 100, status := "completed" } }

/-- Outcome of `POST /api/crawl/start` of `src/server.js`: HTTP status and
the run stored in the `crawlRuns` registry (if any), at its terminal state. -/
structure StartOutcome where
  httpStatus : Nat
  stored : Option SState
deriving Repr, DecidableEq

/-- `POST /api/crawl/start` of `src/server.js`: 400 for an invalid mode,
otherwise create the run, launch `startRun` and answer 202 with the run id. -/
def startHandler (mode : String) (llmToken : String)
    (remoteOk wwr : Except String (List Job)) (llm : Except String (List Insight)) : StartOutcome :=
  if mode == "standard" || mode == "advanced" then
    { httpStatus := 202, stored := some (startRun (createRun mode) llmToken remoteOk wwr llm) }
  else
    { httpStatus := 400, stored := none }

/-- Outcome of `GET /api/crawl/events/:runId` of `src/server.js`: HTTP
status and the first message the newly attached client receives (the handler
adds the client to `run.clients` and immediately calls `pushUpdate`, so the
first message is the current full snapshot). -/
structure EventsOutcome where
  httpStatus : Nat
  firstMessage : Option Payload
deriving Repr, DecidableEq

/-- `GET /api/crawl/events/:runId` of `src/server.js`: 404 when the lookup
in `crawlRuns` fails (no stream opened), otherwise attach and immediately
broadcast the current snapshot. -/
def eventsHandler (lookup : Option Run) : EventsOutcome :=
  match lookup with
  | none => { httpStatus := 404, firstMessage := none }
  | some run => { httpStatus := 200, firstMessage := some (payloadOf run) }

/-- The progress values of the snapshots broadcast over a run's lifetime. -/
def progressTrace (s : SState) : List Nat :=
  s.actions.filterMap (fun a =>
    match a with
    | SAction.write payload => some payload.progress
    | SAction.endStream => none)

end ServerJs

/-- `jobsOf` for the server.js variant: the jobs a scraper outcome
contributes (its list on success, nothing on failure). -/
def ServerJs.jobsOf : Except String (List ServerJs.Job) → List ServerJs.Job
  | Except.ok l => l
  | Except.error _ => []

theorem dedupAux_eq_keepFirst (key : α → String) (seen : List String) (l : List α) :
    dedupAux key seen l = keepFirstOccurrences key (l.filter (fun x => !(seen.contains (key x)))) := by
  induction l generalizing seen with
  | nil => simp [dedupAux, keepFirstOccurrences]
  | cons x rest ih =>
    by_cases h : key x ∈ seen
    · simp [dedupAux, h, ih]
    · have h1 : dedupAux key seen (x :: rest) = x :: dedupAux key (key x :: seen) rest := by
        simp [dedupAux, h]
      have h2 : List.filter (fun a => !(seen.contains (key a))) (x :: rest)
          = x :: List.filter (fun a => !(seen.contains (key a))) rest := by
        simp [h]
      rw [h1, h2, ih (key x :: seen)]
      simp only [keepFirstOccurrences, List.cons.injEq, true_and]
      congr 1
      rw [List.filter_filter]
      apply List.filter_congr
      intro y _
      by_cases hy1 : key y = key x <;> by_cases hy2 : key y ∈ seen <;> simp [hy1, hy2, bne]

theorem dedupeByKey_eq_keepFirst (key : α → String) (l : List α) :
    dedupeByKey key l = keepFirstOccurrences key l := by
  rw [dedupeByKey, dedupAux_eq_keepFirst]
  congr 1
  simp

theorem dedupAux_idem (key : α → String) (seen : List String) (l : List α) :
    dedupAux key seen (dedupAux key seen l) = dedupAux key seen l := by
  induction l generalizing seen with
  | nil => simp [dedupAux]
  | cons x rest ih =>
    by_cases h : key x ∈ seen
    · simp [dedupAux, h, ih]
    · simp [dedupAux, h, ih (key x :: seen)]

theorem dedupAux_keys_nodup (key : α → String) (seen : List String) (l : List α)
    : ((dedupAux key seen l).map key).Nodup
    ∧ ∀ k ∈ (dedupAux key seen l).map key, k ∉ seen := by
  induction l generalizing seen with
  | nil => simp [dedupAux]
  | cons x rest ih =>
    by_cases h : key x ∈ seen
    · simpa [dedupAux, h] using ih seen
    · have ihx := ih (key x :: seen)
      simp only [dedupAux, h, List.elem_eq_mem, decide_eq_true_eq, if_false, List.map_cons,
        List.nodup_cons]
      refine ⟨⟨?_, ihx.1⟩, ?_⟩
      · intro hmem
        exact (ihx.2 (key x) hmem) (List.mem_cons_self _ _)
      · intro k hk
        rcases List.mem_cons.mp hk with hk | hk
        · subst hk; exact h
        · exact fun hks => (ihx.2 k hk) (List.mem_cons_of_mem _ hks)

/-- C5: deduplication in both variants keeps exactly the first occurrence of
each (case-insensitive) key — title+company in `part_000`,
title+company+url in `server.js` — in input order (it equals the spec-side
`keepFirstOccurrences`), it is idempotent, and the keys of its output are
pairwise distinct. -/
theorem c5_dedupe_first_occurrence_idempotent :
    (∀ jobs : List Part0.Job, Part0.dedupe jobs = keepFirstOccurrences Part0.dedupKey jobs)
  ∧ (∀ jobs : List ServerJs.Job,
      ServerJs.dedupeJobs jobs = keepFirstOccurrences ServerJs.dedupeKeyOf jobs)
  ∧ (∀ jobs : List Part0.Job, Part0.dedupe (Part0.dedupe jobs) = Part0.dedupe jobs)
  ∧ (∀ jobs : List ServerJs.Job,
      ServerJs.dedupeJobs (ServerJs.dedupeJobs jobs) = ServerJs.dedupeJobs jobs)
  ∧ (∀ jobs : List Part0.Job, ((Part0.dedupe jobs).map Part0.dedupKey).Nodup)
  ∧ (∀ jobs : List ServerJs.Job, ((ServerJs.dedupeJobs jobs).map ServerJs.dedupeKeyOf).Nodup) :=
  ⟨fun jobs => dedupeByKey_eq_keepFirst _ jobs,
   fun jobs => dedupeByKey_eq_keepFirst _ jobs,
   fun jobs => dedupAux_idem _ [] jobs,
   fun jobs => dedupAux_idem _ [] jobs,
   fun jobs => (dedupAux_keys_nodup _ [] jobs).1,
   fun jobs => (dedupAux_keys_nodup _ [] jobs).1⟩

/-- A nonempty list still has elements after `take 15`. -/
theorem take15_isEmpty_false (l : List α) (hl : l ≠ []) : (l.take 15).isEmpty = false := by
  cases l with
  | nil => exact absurd rfl hl
  | cons a t => rfl

/-- C10: every run of the `part_000` variant ends with status `completed`
and with at most 50 stored jobs — `runCrawl` assigns
`finalJobs.slice(0, 50)` in standard and advanced mode alike. -/
theorem c10_completed_jobs_at_most_50
    (advancedMode : Bool) (llmToken : String)
    (remotive arbeitnow : Except String (List Part0.Job)) (llm : Except String Part0.LLMResponse) :
    (Part0.part0Run advancedMode llmToken remotive arbeitnow llm).status = "completed"
  ∧ (Part0.part0Run advancedMode llmToken remotive arbeitnow llm).jobs.length ≤ 50 := by
  constructor
  · rfl
  · show (List.take 50 _).length ≤ 50
    simp [List.length_take]

/-- C4: a failing source fetcher is isolated in both variants — the run
still completes, the failed source contributes zero jobs (the final list is
computed from the other source's jobs alone), and a log entry naming the
source and carrying its failure reason is recorded.  Stated for the first
source (Remotive) failing in `part_000` and the second source
(WeWorkRemotely) failing in `server.js`. -/
theorem c4_source_failure_isolated
    (e llmToken : String) (goodP : List Part0.Job) (llmP : Except String Part0.LLMResponse)
    (goodS : List ServerJs.Job) (llmS : Except String (List ServerJs.Insight)) :
    ((Part0.part0Run false llmToken (Except.error e) (Except.ok goodP) llmP).status = "completed"
   ∧ (Part0.part0Run false llmToken (Except.error e) (Except.ok goodP) llmP).jobs
       = (Part0.dedupe (goodP.filter Part0.isMLJob)).take 50
   ∧ Part0.PEvent.logEv ("Remotive crawl failed: " ++ e)
       ∈ (Part0.part0Run false llmToken (Except.error e) (Except.ok goodP) llmP).events)
  ∧ ((ServerJs.startRun (ServerJs.createRun "standard") llmToken (Except.ok goodS) (Except.error e) llmS).run.status
       = "completed"
   ∧ (ServerJs.startRun (ServerJs.createRun "standard") llmToken (Except.ok goodS) (Except.error e) llmS).run.jobs
       = ServerJs.sortByTitle (ServerJs.dedupeJobs goodS)
   ∧ ("WeWorkRemotely failed: " ++ e)
       ∈ (ServerJs.startRun (ServerJs.createRun "standard") llmToken (Except.ok goodS) (Except.error e) llmS).run.logs) := by
  refine ⟨⟨rfl, ?_, ?_⟩, ?_, ?_, ?_⟩ <;>
    simp [Part0.part0Run, Part0.runCrawl, Part0.crawlLoop, Part0.createSession, Part0.pushEvent,
      Part0.jobsOf, ServerJs.startRun, ServerJs.createRun, ServerJs.runStandardCrawl,
      ServerJs.standardLoop, ServerJs.addLog, ServerJs.pushUpdate, ServerJs.jsLogPush,
      ServerJs.payloadOf]

/-- C3: in both variants a failing LLM ranking call does not fail the run.
In `part_000` the run completes with jobs equal to the heuristic fallback —
the first 30 of the deduplicated list, in their original order — and the
joined notes (ending in the `LLM ranking failed` reason) are logged.  In
`server.js` the run completes with `run.jobs` left exactly as the standard
crawl produced them (that variant's heuristic ordering, with no truncation
bound) and the `LLM synthesis skipped` reason is logged; its LLM call only
happens when the crawl produced at least one job, hence the nonemptiness
hypothesis. -/
theorem c3_ranking_failure_heuristic_fallback
    (remotive arbeitnow : Except String (List Part0.Job))
    (remoteOk wwr : Except String (List ServerJs.Job))
    (llmToken err : String) (ht : llmToken ≠ "")
    (hne : ServerJs.sortByTitle (ServerJs.dedupeJobs (ServerJs.jobsOf remoteOk ++ ServerJs.jobsOf wwr)) ≠ []) :
    ((Part0.part0Run true llmToken remotive arbeitnow (Except.error err)).status = "completed"
   ∧ (Part0.part0Run true llmToken remotive arbeitnow (Except.error err)).jobs
       = (Part0.dedupe ((Part0.jobsOf remotive ++ Part0.jobsOf arbeitnow).filter Part0.isMLJob)).take 30
   ∧ Part0.PEvent.logEv (String.intercalate " | " (Part0.graphNotes ++ ["LLM ranking failed: " ++ err]))
       ∈ (Part0.part0Run true llmToken remotive arbeitnow (Except.error err)).events)
  ∧ ((ServerJs.startRun (ServerJs.createRun "advanced") llmToken remoteOk wwr (Except.error err)).run.status
       = "completed"
   ∧ (ServerJs.startRun (ServerJs.createRun "advanced") llmToken remoteOk wwr (Except.error err)).run.jobs
       = ServerJs.sortByTitle (ServerJs.dedupeJobs (ServerJs.jobsOf remoteOk ++ ServerJs.jobsOf wwr))
   ∧ ("LLM synthesis skipped: " ++ err)
       ∈ (ServerJs.startRun (ServerJs.createRun "advanced") llmToken remoteOk wwr (Except.error err)).run.logs) := by
  have hb : (llmToken == "") = false := by simp [ht]
  refine ⟨⟨rfl, ?_, ?_⟩, ?_, ?_, ?_⟩
  · cases remotive <;> cases arbeitnow <;>
      simp [Part0.part0Run, Part0.runCrawl, Part0.crawlLoop, Part0.createSession, Part0.pushEvent,
        Part0.jobsOf, Part0.runAdvancedDeepResearch, hb, List.take_take]
  · cases remotive <;> cases arbeitnow <;>
      simp [Part0.part0Run, Part0.runCrawl, Part0.crawlLoop, Part0.createSession, Part0.pushEvent,
        Part0.jobsOf, Part0.runAdvancedDeepResearch, hb]
  all_goals
    cases remoteOk <;> cases wwr <;>
      simp_all [ServerJs.startRun, ServerJs.createRun, ServerJs.runLangGraphResearch,
        ServerJs.stagedLoop, ServerJs.graphStages, ServerJs.runStandardCrawl, ServerJs.standardLoop,
        ServerJs.addLog, ServerJs.pushUpdate, ServerJs.jsLogPush, ServerJs.payloadOf,
        ServerJs.jobsOf, hb, take15_isEmpty_false]

/-- A sample ML-relevant job of the `part_000` shape (its title contains the
keyword `ml`). -/
def sampleJobP : Part0.Job :=
  { id := "Remotive-1", source := "Remotive", title := "ml engineer", company := "Acme",
    location := "Remote", url := "https://x/1", publishedAt := none, description := "ml role" }

/-- A sample job of the `server.js` shape. -/
def sampleJobS : ServerJs.Job :=
  { title := "ml engineer", company := "Acme", location := "Remote", source := "RemoteOK",
    url := "https://x/1", postedAt := none, summary := "ml", fitScore := none, rationale := none }

/-- Witness for C3 at a concrete input. -/
theorem c3_ranking_failure_heuristic_fallback_witness :
    (("t" : String) ≠ ""
   ∧ ServerJs.sortByTitle (ServerJs.dedupeJobs
       (ServerJs.jobsOf (Except.ok [sampleJobS]) ++ ServerJs.jobsOf (Except.error "down"))) ≠ [])
  ∧ (((Part0.part0Run true "t" (Except.ok [sampleJobP]) (Except.error "down") (Except.error "boom")).status = "completed"
   ∧ (Part0.part0Run true "t" (Except.ok [sampleJobP]) (Except.error "down") (Except.error "boom")).jobs
       = (Part0.dedupe ((Part0.jobsOf (Except.ok [sampleJobP]) ++ Part0.jobsOf (Except.error "down")).filter Part0.isMLJob)).take 30
   ∧ Part0.PEvent.logEv (String.intercalate " | " (Part0.graphNotes ++ ["LLM ranking failed: " ++ "boom"]))
       ∈ (Part0.part0Run true "t" (Except.ok [sampleJobP]) (Except.error "down") (Except.error "boom")).events)
  ∧ ((ServerJs.startRun (ServerJs.createRun "advanced") "t" (Except.ok [sampleJobS]) (Except.error "down") (Except.error "boom")).run.status
       = "completed"
   ∧ (ServerJs.startRun (ServerJs.createRun "advanced") "t" (Except.ok [sampleJobS]) (Except.error "down") (Except.error "boom")).run.jobs
       = ServerJs.sortByTitle (ServerJs.dedupeJobs (ServerJs.jobsOf (Except.ok [sampleJobS]) ++ ServerJs.jobsOf (Except.error "down")))
   ∧ ("LLM synthesis skipped: " ++ "boom")
       ∈ (ServerJs.startRun (ServerJs.createRun "advanced") "t" (Except.ok [sampleJobS]) (Except.error "down") (Except.error "boom")).run.logs)) :=
  ⟨⟨by decide, by decide⟩,
   c3_ranking_failure_heuristic_fallback (Except.ok [sampleJobP]) (Except.error "down")
     (Except.ok [sampleJobS]) (Except.error "down") "t" "boom" (by decide) (by decide)⟩

/-- C1: the progress values broadcast by a `server.js` advanced-mode run
are not monotonically non-decreasing.  At a concrete run (valid token, both
scrapers succeeding with empty results) the staged pipeline emits progress
30 and the embedded standard crawl then emits progress 0
(`Math.floor((0 / 2) * 80)`) before climbing again, even though the run
does end at exactly 100 on completion. -/
theorem c1_advanced_progress_not_monotone :
    ServerJs.progressTrace
      (ServerJs.startRun (ServerJs.createRun "advanced") "tok" (Except.ok []) (Except.ok []) (Except.ok []))
      = [0, 0, 0, 10, 20, 30, 0, 0, 0, 40, 40, 40, 90, 95, 95, 100]
  ∧ nonDecreasing (ServerJs.progressTrace
      (ServerJs.startRun (ServerJs.createRun "advanced") "tok" (Except.ok []) (Except.ok []) (Except.ok []))) = false
  ∧ (ServerJs.startRun (ServerJs.createRun "advanced") "tok" (Except.ok []) (Except.ok []) (Except.ok [])).run.status
      = "completed"
  ∧ (ServerJs.startRun (ServerJs.createRun "advanced") "tok" (Except.ok []) (Except.ok []) (Except.ok [])).run.progress
      = 100 := by
  refine ⟨by decide, by decide, by decide, by decide⟩

/-- Counterexample to C2: starting an advanced-mode run with an empty
credential is not rejected — in both variants the handler answers 202 and a
run is stored in the registry. -/
theorem c2_counterexample_run_created_without_token :
    (ServerJs.startHandler "advanced" "" (Except.ok []) (Except.ok []) (Except.ok [])).httpStatus = 202
  ∧ (ServerJs.startHandler "advanced" "" (Except.ok []) (Except.ok []) (Except.ok [])).stored ≠ none
  ∧ (Part0.startHandler true "" (Except.ok []) (Except.ok []) (Except.error "x")).httpStatus = 202
  ∧ (Part0.startHandler true "" (Except.ok []) (Except.ok []) (Except.error "x")).stored ≠ none := by
  refine ⟨by decide, by decide, by decide, by decide⟩

/-- C2 as amended: neither variant validates the credential at the start
endpoint.  Both always create and store a run and answer 202; in
`server.js` the missing-token check happens inside the already-launched run,
which transitions to `failed` with the message
`Advanced mode requires llmToken.` logged, while in `part_000` the run
proceeds to `completed` using the no-token heuristic fallback, with the
corresponding note logged. -/
theorem c2_amended_start_without_token_accepted
    (remotive arbeitnow : Except String (List Part0.Job)) (llmP : Except String Part0.LLMResponse)
    (remoteOk wwr : Except String (List ServerJs.Job)) (llmS : Except String (List ServerJs.Insight)) :
    ((ServerJs.startHandler "advanced" "" remoteOk wwr llmS).httpStatus = 202
   ∧ (ServerJs.startHandler "advanced" "" remoteOk wwr llmS).stored
       = some (ServerJs.startRun (ServerJs.createRun "advanced") "" remoteOk wwr llmS)
   ∧ (ServerJs.startRun (ServerJs.createRun "advanced") "" remoteOk wwr llmS).run.status = "failed"
   ∧ "Advanced mode requires llmToken."
       ∈ (ServerJs.startRun (ServerJs.createRun "advanced") "" remoteOk wwr llmS).run.logs)
  ∧ ((Part0.startHandler true "" remotive arbeitnow llmP).httpStatus = 202
   ∧ (Part0.startHandler true "" remotive arbeitnow llmP).stored
       = some (Part0.part0Run true "" remotive arbeitnow llmP)
   ∧ (Part0.part0Run true "" remotive arbeitnow llmP).status = "completed"
   ∧ Part0.PEvent.logEv (String.intercalate " | "
         (Part0.graphNotes ++ ["No LLM API token provided. Returned heuristic ranking only."]))
       ∈ (Part0.part0Run true "" remotive arbeitnow llmP).events) := by
  refine ⟨⟨rfl, rfl, rfl, ?_⟩, rfl, rfl, rfl, ?_⟩
  · simp [ServerJs.startRun, ServerJs.createRun, ServerJs.addLog, ServerJs.pushUpdate,
      ServerJs.jsLogPush, ServerJs.payloadOf]
  · cases remotive <;> cases arbeitnow <;>
      simp [Part0.part0Run, Part0.runCrawl, Part0.crawlLoop, Part0.createSession, Part0.pushEvent,
        Part0.jobsOf, Part0.runAdvancedDeepResearch]

theorem find_eq_of_nodup_map (f : α → String) (l : List α) (x : α)
    (h : (l.map f).Nodup) (hx : x ∈ l) : l.find? (fun y => f y == f x) = some x := by
  induction l with
  | nil => simp at hx
  | cons a rest ih =>
    simp only [List.map_cons, List.nodup_cons] at h
    rcases List.mem_cons.mp hx with hx | hx
    · subst hx
      simp [List.find?_cons]
    · have hne : (f a == f x) = false := by
        rw [beq_eq_false_iff_ne]
        intro hfa
        exact h.1 (hfa ▸ List.mem_map_of_mem f hx)
      rw [List.find?_cons, hne]
      exact ih h.2 hx

/-- When the jobs handed to the ranker have pairwise-distinct ids, the
remainder condition of `runAdvancedDeepResearch` — membership of a job's id
among the ids of the looked-up ranked jobs — is plain membership of its id
in the response's identifier list. -/
theorem ranked_any_eq_contains (jobs : List Part0.Job) (ids : List String)
    (h : (jobs.map Part0.Job.id).Nodup) (j : Part0.Job) (hj : j ∈ jobs) :
    ((ids.filterMap (fun rid => jobs.find? (fun job => job.id == rid))).any (fun r => r.id == j.id))
      = ids.contains j.id := by
  by_cases hc : j.id ∈ ids
  · have hfind : jobs.find? (fun job => job.id == j.id) = some j :=
      find_eq_of_nodup_map Part0.Job.id jobs j h hj
    have hjr : j ∈ ids.filterMap (fun rid => jobs.find? (fun job => job.id == rid)) := by
      rw [List.mem_filterMap]
      exact ⟨j.id, hc, hfind⟩
    have hany : (ids.filterMap (fun rid => jobs.find? (fun job => job.id == rid))).any
        (fun r => r.id == j.id) = true := by
      rw [List.any_eq_true]
      exact ⟨j, hjr, by simp⟩
    simp [hany, hc]
  · have hany : (ids.filterMap (fun rid => jobs.find? (fun job => job.id == rid))).any
        (fun r => r.id == j.id) = false := by
      rw [Bool.eq_false_iff]
      intro hany
      rw [List.any_eq_true] at hany
      rcases hany with ⟨r, hr, hrid⟩
      rw [List.mem_filterMap] at hr
      rcases hr with ⟨rid, hrid2, hfind⟩
      have hp := List.find?_some hfind
      rw [beq_iff_eq] at hp hrid
      have hjid : j.id = rid := by rw [← hrid, hp]
      exact hc (hjid ▸ hrid2)
    simp [hany, hc]

/-- The merge of `runAdvancedDeepResearch` on a parsed response, under
distinct job ids: looked-up ranked jobs first (response order), then the
jobs whose id the response does not reference (input order), cut to 30. -/
theorem advanced_ok_jobs (jobs : List Part0.Job) (llmToken : String)
    (rankedIds : List String) (summary : Option String)
    (hid : (jobs.map Part0.Job.id).Nodup) (ht : llmToken ≠ "") :
    (Part0.runAdvancedDeepResearch jobs llmToken
        (Except.ok { rankedIds := rankedIds, summary := summary })).jobs
      = ((rankedIds.filterMap (fun rid => jobs.find? (fun job => job.id == rid)))
          ++ jobs.filter (fun job => !(rankedIds.contains job.id))).take 30 := by
  have hb : (llmToken == "") = false := by simp [ht]
  have hfc : jobs.filter (fun job =>
        !((rankedIds.filterMap (fun rid => jobs.find? (fun j => j.id == rid))).any
            (fun r => r.id == job.id)))
      = jobs.filter (fun job => !(rankedIds.contains job.id)) := by
    apply List.filter_congr
    intro j hj
    rw [ranked_any_eq_contains jobs rankedIds hid j hj]
  simp only [Part0.runAdvancedDeepResearch, hb, Bool.false_eq_true, if_false]
  rw [hfc]

/-- The final job list of an advanced `part_000` run is the ranker's output
cut to 50 (with the deduplicated, filtered aggregate as the ranker input). -/
theorem part0Run_advanced_jobs (remotive arbeitnow : Except String (List Part0.Job))
    (llmToken : String) (llm : Except String Part0.LLMResponse) :
    (Part0.part0Run true llmToken remotive arbeitnow llm).jobs
      = (Part0.runAdvancedDeepResearch
          (Part0.dedupe ((Part0.jobsOf remotive ++ Part0.jobsOf arbeitnow).filter Part0.isMLJob))
          llmToken llm).jobs.take 50 := by
  cases remotive <;> cases arbeitnow <;>
    simp [Part0.part0Run, Part0.runCrawl, Part0.crawlLoop, Part0.createSession, Part0.pushEvent,
      Part0.jobsOf]

/-- Counterexample to C6: in `server.js`, when the LLM response parses, the
final list is sorted by descending `fitScore`, not by the order in which the
response references the jobs, and it is not truncated.  Concretely, the
response references url `https://x/1` first and `https://x/2` second, yet
the final list starts with `https://x/2` (the higher score). -/
theorem c6_counterexample_fitscore_sort_breaks_response_order :
    (ServerJs.startRun (ServerJs.createRun "advanced") "t"
        (Except.ok [sampleJobS, { sampleJobS with title := "zz ml", url := "https://x/2" }])
        (Except.ok [])
        (Except.ok [{ url := "https://x/1", fitScore := some 10, rationale := "r1" },
                    { url := "https://x/2", fitScore := some 90, rationale := "r2" }])).run.status
      = "completed"
  ∧ ([{ url := "https://x/1", fitScore := some 10, rationale := "r1" },
      { url := "https://x/2", fitScore := some 90, rationale := "r2" }] : List ServerJs.Insight).map
        (fun x => x.url) = ["https://x/1", "https://x/2"]
  ∧ (ServerJs.startRun (ServerJs.createRun "advanced") "t"
        (Except.ok [sampleJobS, { sampleJobS with title := "zz ml", url := "https://x/2" }])
        (Except.ok [])
        (Except.ok [{ url := "https://x/1", fitScore := some 10, rationale := "r1" },
                    { url := "https://x/2", fitScore := some 90, rationale := "r2" }])).run.jobs.map
        (fun j => j.url) = ["https://x/2", "https://x/1"] := by
  refine ⟨by decide, by decide, by decide⟩

/-- C6 as amended: the stated merge policy — response-referenced jobs first
in response order, unreferenced jobs appended in their original order, the
result truncated to the bound (30) — holds for the `part_000` variant,
provided the deduplicated jobs have pairwise-distinct ids (jobs are
referenced by id).  The `server.js` variant instead annotates jobs by url
with `fitScore`/`rationale` and re-sorts the whole (untruncated) list by
descending score. -/
theorem c6_amended_merge_policy
    (remotive arbeitnow : Except String (List Part0.Job))
    (llmToken : String) (rankedIds : List String) (summary : Option String)
    (ht : llmToken ≠ "")
    (hid : ((Part0.dedupe ((Part0.jobsOf remotive ++ Part0.jobsOf arbeitnow).filter Part0.isMLJob)).map
        Part0.Job.id).Nodup) :
    (Part0.part0Run true llmToken remotive arbeitnow
        (Except.ok { rankedIds := rankedIds, summary := summary })).status = "completed"
  ∧ (Part0.part0Run true llmToken remotive arbeitnow
        (Except.ok { rankedIds := rankedIds, summary := summary })).jobs
      = ((rankedIds.filterMap (fun rid =>
            (Part0.dedupe ((Part0.jobsOf remotive ++ Part0.jobsOf arbeitnow).filter Part0.isMLJob)).find?
              (fun job => job.id == rid)))
          ++ (Part0.dedupe ((Part0.jobsOf remotive ++ Part0.jobsOf arbeitnow).filter Part0.isMLJob)).filter
              (fun job => !(rankedIds.contains job.id))).take 30 := by
  constructor
  · rfl
  · rw [part0Run_advanced_jobs, advanced_ok_jobs _ _ _ _ hid ht, List.take_take]
    norm_num

/-- Witness for the amended C6 at a concrete input. -/
theorem c6_amended_merge_policy_witness :
    (("t" : String) ≠ ""
   ∧ ((Part0.dedupe ((Part0.jobsOf (Except.ok [sampleJobP]) ++ Part0.jobsOf (Except.error "down")).filter
          Part0.isMLJob)).map Part0.Job.id).Nodup)
  ∧ ((Part0.part0Run true "t" (Except.ok [sampleJobP]) (Except.error "down")
        (Except.ok { rankedIds := ["Remotive-1"], summary := none })).status = "completed"
   ∧ (Part0.part0Run true "t" (Except.ok [sampleJobP]) (Except.error "down")
        (Except.ok { rankedIds := ["Remotive-1"], summary := none })).jobs
      = ((["Remotive-1"].filterMap (fun rid =>
            (Part0.dedupe ((Part0.jobsOf (Except.ok [sampleJobP]) ++ Part0.jobsOf (Except.error "down")).filter
              Part0.isMLJob)).find? (fun job => job.id == rid)))
          ++ (Part0.dedupe ((Part0.jobsOf (Except.ok [sampleJobP]) ++ Part0.jobsOf (Except.error "down")).filter
              Part0.isMLJob)).filter (fun job => !((["Remotive-1"] : List String).contains job.id))).take 30) :=
  ⟨⟨by decide, by decide⟩,
   c6_amended_merge_policy (Except.ok [sampleJobP]) (Except.error "down") "t" ["Remotive-1"] none
     (by decide) (by decide)⟩

/-- Counterexample to C7: a `server.js` run reaches `completed` (so its
terminal snapshot has been broadcast to every connected client), yet the
whole lifetime trace of actions on the clients contains no close — the
events endpoint never calls `res.end()`; only the client can close. -/
theorem c7_counterexample_server_never_closes :
    (ServerJs.startRun (ServerJs.createRun "standard") "" (Except.ok []) (Except.ok []) (Except.ok [])).run.status
      = "completed"
  ∧ ServerJs.SAction.endStream
      ∉ (ServerJs.startRun (ServerJs.createRun "standard") "" (Except.ok []) (Except.ok []) (Except.ok [])).actions := by
  refine ⟨by decide, by decide⟩

/-- C7 as amended: in `part_000` the stream endpoint, once the session is
terminal (`completed` or `failed`), delivers every remaining event —
including the terminal one — and then closes the response, and answers 404
for an unknown id with no stream opened; `server.js` answers 404 for an
unknown id as well (but never server-closes, see the counterexample). -/
theorem c7_amended_stream_close (session : Part0.Session) (eventIndex : Nat)
    (h : session.status = "completed" ∨ session.status = "failed") :
    (Part0.pushPendingEvents session eventIndex).1
      = (session.events.drop eventIndex).map Part0.StreamAction.write ++ [Part0.StreamAction.endStream]
  ∧ Part0.streamHandler none = { httpStatus := 404, actions := [] }
  ∧ ServerJs.eventsHandler none = { httpStatus := 404, firstMessage := none } := by
  refine ⟨?_, rfl, rfl⟩
  rcases h with h | h <;> simp [Part0.pushPendingEvents, h]

/-- Witness for the amended C7 at a concrete completed session. -/
theorem c7_amended_stream_close_witness :
    ((Part0.part0Run false "" (Except.ok []) (Except.ok []) (Except.error "x")).status = "completed"
      ∨ (Part0.part0Run false "" (Except.ok []) (Except.ok []) (Except.error "x")).status = "failed")
  ∧ ((Part0.pushPendingEvents (Part0.part0Run false "" (Except.ok []) (Except.ok []) (Except.error "x")) 0).1
      = ((Part0.part0Run false "" (Except.ok []) (Except.ok []) (Except.error "x")).events.drop 0).map
          Part0.StreamAction.write ++ [Part0.StreamAction.endStream]
   ∧ Part0.streamHandler none = { httpStatus := 404, actions := [] }
   ∧ ServerJs.eventsHandler none = { httpStatus := 404, firstMessage := none }) :=
  ⟨Or.inl (by decide),
   c7_amended_stream_close (Part0.part0Run false "" (Except.ok []) (Except.ok []) (Except.error "x")) 0
     (Or.inl (by decide))⟩

/-- 151 consecutive `pushEvent` calls on a fresh `part_000` session. -/
def pushEventChain : Nat → Part0.Session
  | 0 => Part0.createSession false
  | n + 1 => Part0.pushEvent (pushEventChain n) (Part0.PEvent.logEv "x")

theorem pushEventChain_length (n : Nat) : (pushEventChain n).events.length = n := by
  induction n with
  | zero => rfl
  | succ n ih => simp [pushEventChain, Part0.pushEvent, ih]

/-- Counterexample to C8: the `events` sequence of a `part_000` session is
unbounded — `pushEvent` is a plain append with no retention cap, so after
151 appends the sequence holds 151 records, exceeding the 150-record cap the
other variant enforces. -/
theorem c8_counterexample_part0_events_unbounded :
    (pushEventChain 151).events.length = 151
  ∧ ¬ ((pushEventChain 151).events.length ≤ 150) := by
  rw [pushEventChain_length]
  omega

/-- C8 as amended: in `server.js` the per-run log is capped at 150 entries —
`addLog` pushes and then evicts the oldest entry whenever the length exceeds
150, so a log at or under the cap stays at or under the cap, and a log
exactly at the cap loses its oldest entry; in `part_000`, `pushEvent` is a
plain uncapped append. -/
theorem c8_amended_log_cap (logs : List String) (message : String) (h : logs.length ≤ 150) :
    (ServerJs.jsLogPush logs message).length ≤ 150
  ∧ (logs.length = 150 → ServerJs.jsLogPush logs message = logs.drop 1 ++ [message])
  ∧ (∀ (s : ServerJs.SState) (m : String),
      (ServerJs.addLog s m).run.logs = ServerJs.jsLogPush s.run.logs m)
  ∧ (∀ (session : Part0.Session) (event : Part0.PEvent),
      (Part0.pushEvent session event).events = session.events ++ [event]) := by
  refine ⟨?_, ?_, fun s m => rfl, fun session event => rfl⟩
  · simp only [ServerJs.jsLogPush]
    split <;> simp_all
  · intro h150
    have hgt : 150 < (logs ++ [message]).length := by simp [h150]
    simp only [ServerJs.jsLogPush, hgt, if_true, gt_iff_lt]
    rw [List.drop_append_of_le_length (by omega)]

/-- Witness for the amended C8 at a log exactly at the cap. -/
theorem c8_amended_log_cap_witness :
    (List.replicate 150 "m").length ≤ 150
  ∧ ((ServerJs.jsLogPush (List.replicate 150 "m") "x").length ≤ 150
   ∧ ((List.replicate 150 "m").length = 150 →
        ServerJs.jsLogPush (List.replicate 150 "m") "x" = (List.replicate 150 "m").drop 1 ++ ["x"])
   ∧ (∀ (s : ServerJs.SState) (m : String),
        (ServerJs.addLog s m).run.logs = ServerJs.jsLogPush s.run.logs m)
   ∧ (∀ (session : Part0.Session) (event : Part0.PEvent),
        (Part0.pushEvent session event).events = session.events ++ [event])) :=
  ⟨by simp, c8_amended_log_cap (List.replicate 150 "m") "x" (by simp)⟩

/-- The session state of a `part_000` run observed mid-run: the start
handler's progress-5 event has been pushed and both source iterations of
`runCrawl` have completed, leaving `session.progress = 40`. -/
def midSession : Part0.Session :=
  (Part0.crawlLoop
    (Part0.pushEvent (Part0.createSession false) (Part0.PEvent.progressEv 5 "Starting crawl"))
    [] 0 [("Remotive", Except.ok []), ("Arbeitnow", Except.ok [])]).1

/-- Counterexample to C9: an observer attaching to this mid-run `part_000`
session (current progress 40) receives as its first message the oldest
buffered event — the initial progress-5 record — not a snapshot of the
latest state: the stream endpoint replays `session.events` from index 0. -/
theorem c9_counterexample_part0_replays_oldest :
    midSession.status = "running"
  ∧ midSession.progress = 40
  ∧ (Part0.streamHandler (some midSession)).actions.head?
      = some (Part0.StreamAction.write (Part0.PEvent.progressEv 5 "Starting crawl")) := by
  refine ⟨by decide, by decide, by decide⟩

/-- C9 as amended: in `server.js` a newly attached observer's first message
is the run's current full snapshot (status, progress, stage, logs, jobs as
they are at attach time); in `part_000` a newly attached observer instead
receives a replay of the entire buffered event sequence from the oldest
record onward. -/
theorem c9_amended_snapshot_or_replay
    (run : ServerJs.Run) (session : Part0.Session) (h : session.status = "running") :
    (ServerJs.eventsHandler (some run)).firstMessage
      = some { status := run.status, progress := run.progress, stage := run.stage,
               logs := run.logs, jobs := run.jobs }
  ∧ (Part0.streamHandler (some session)).actions = session.events.map Part0.StreamAction.write := by
  constructor
  · rfl
  · simp [Part0.streamHandler, Part0.pushPendingEvents, h]

/-- Witness for the amended C9 at a concrete run and a concrete running
session. -/
theorem c9_amended_snapshot_or_replay_witness :
    midSession.status = "running"
  ∧ ((ServerJs.eventsHandler (some (ServerJs.createRun "standard").run)).firstMessage
      = some { status := (ServerJs.createRun "standard").run.status,
               progress := (ServerJs.createRun "standard").run.progress,
               stage := (ServerJs.createRun "standard").run.stage,
               logs := (ServerJs.createRun "standard").run.logs,
               jobs := (ServerJs.createRun "standard").run.jobs }
   ∧ (Part0.streamHandler (some midSession)).actions = midSession.events.map Part0.StreamAction.write) :=
  ⟨by decide, c9_amended_snapshot_or_replay (ServerJs.createRun "standard").run midSession (by decide)⟩

end MLJobs
